import Mathlib

/-
Shallow embedding of the monitor-server alert lifecycle engine and
metrics-history sampler, translated from the Go source:

  internal/service/alert_service.go   (AlertService: CheckAlerts,
      getActiveAlert, createAlert, updateAlert, ResolveAlert,
      AcknowledgeAlert)
  internal/service/monitor.go         (monitorService: NewMonitorService,
      collectHistoricalData, the three bounded history slices)
  internal/model/alert.go             (Alert, AlertHistory, SystemEvent)
  the model package file holding AlertRule

Modelling conventions:
  - Go float64 metric values are modelled as rationals (ℚ).  The embedded
    code only copies and compares these values (no float arithmetic is
    relevant to any verified statement), so an ordered exact field is an
    order-faithful model of float64 comparison on the finite values the
    program handles.
  - time.Time instants are modelled as Nat.
  - The gorm-backed database is modelled as an in-memory state: a list of
    alert rows (in primary-key insertion order, as gorm's `First` scans),
    an append-only list of alert-history rows, an append-only list of
    system-event rows, and the next alert primary key.  Columns gorm
    manages that no verified statement mentions (history/event row ids and
    timestamps, soft-delete marks) are omitted.
  - Go map iteration over the three metric keys of CheckAlerts has
    unspecified order; the model fixes the order cpu, memory, disk.  Every
    statement proved below is insensitive to that order.
-/

/-- internal/service/alert_service.go: `MonitoringData` — the aggregate
reading handed to CheckAlerts each evaluation tick. -/
structure MonitoringData where
  cpu : ℚ
  memory : ℚ
  disk : ℚ
deriving Repr, DecidableEq

/-- model package: `AlertRule`.  `id` stands for BaseModel.ID; the gorm
timestamp/soft-delete columns of BaseModel are omitted (no statement
mentions them). -/
structure AlertRule where
  id : Nat
  name : String
  metricType : String
  operator : String
  threshold : ℚ
  duration : Int
  severity : String
  enabled : Bool
  description : String
deriving Repr, DecidableEq

/-- internal/model/alert.go: `Alert`.  Note this record has no end-time
column; its fields are exactly ID, MetricType, Severity, Value, Threshold,
Status, Message, Description, HostName and the gorm-managed timestamps. -/
structure Alert where
  id : Nat
  metricType : String
  severity : String
  value : ℚ
  threshold : ℚ
  status : String
  message : String
  description : String
  hostName : String
  createdAt : Nat
  updatedAt : Nat
deriving Repr, DecidableEq

/-- internal/model/alert.go: `AlertHistory` (row id, user id and gorm
timestamps omitted — no verified statement mentions them). -/
structure AlertHistory where
  alertID : Nat
  action : String
  message : String
deriving Repr, DecidableEq

/-- internal/model/alert.go: `SystemEvent` (row id, metadata and gorm
timestamps omitted — no verified statement mentions them). -/
structure SystemEvent where
  eventType : String
  severity : String
  message : String
  description : String
  source : String
  hostName : String
deriving Repr, DecidableEq

/-- The alert tables of the gorm database reachable from AlertService:
alert rows in primary-key insertion order, the append-only history and
event tables, and the next alert primary key the database would assign. -/
structure DBState where
  alerts : List Alert
  histories : List AlertHistory
  events : List SystemEvent
  nextID : Nat
deriving Repr, DecidableEq

/-- gorm errors surfaced by the alert service.  `recordNotFound` models
`gorm.ErrRecordNotFound`. -/
inductive DBError where
  | recordNotFound
deriving Repr, DecidableEq

/-- internal/service/alert_service.go: the hostname defaulting at the top
of CheckAlerts — `if hostname == "" then hostname = "localhost"`. -/
def effectiveHostname (osHostname : String) : String :=
  if osHostname = "" then "localhost" else osHostname

/-- The WHERE clause of `getActiveAlert`:
`metric_type = ? AND severity = ? AND host_name = ? AND status = 'active'`. -/
def isActiveFor (metricType severity hostname : String) (a : Alert) : Bool :=
  a.metricType = metricType && a.severity = severity &&
    a.hostName = hostname && a.status = "active"

/-- internal/service/alert_service.go: `getActiveAlert` — gorm `.First`
over the alert table with the active-alert WHERE clause; `ErrRecordNotFound`
is mapped to a nil result, modelled as `none`. -/
def getActiveAlert (s : DBState) (metricType severity hostname : String) :
    Option Alert :=
  s.alerts.find? (isActiveFor metricType severity hostname)

/-- internal/service/alert_service.go: `generateAlertMessage`.  The
`%.1f` float rendering of the Sprintf is modelled by the rational's
string rendering; no verified statement depends on the digits. -/
def generateAlertMessage (metricType severity : String)
    (currentValue threshold : ℚ) : String :=
  let metricName :=
    if metricType = "cpu" then "CPU使用率"
    else if metricType = "memory" then "内存使用率"
    else if metricType = "disk" then "磁盘使用率"
    else ""
  let severityName :=
    if severity = "warning" then "警告"
    else if severity = "critical" then "严重"
    else ""
  metricName ++ severityName ++ ": 当前值" ++ toString currentValue ++
    "%，超过阈值" ++ toString threshold ++ "%"

/-- internal/service/alert_service.go: `generateAlertDescription`, with the
same rendering convention as `generateAlertMessage`. -/
def generateAlertDescription (metricType severity : String)
    (currentValue threshold : ℚ) : String :=
  "系统" ++ metricType ++ "使用率达到" ++ toString currentValue ++
    "%，超过了" ++ severity ++ "阈值" ++ toString threshold ++
    "%。请及时检查系统状态并采取相应措施。"

/-- internal/service/alert_service.go: `createAlert` — inserts the alert
row (gorm assigns the next primary key and stamps created/updated at the
insertion instant), then appends the `created` history row and the
`alert_created` system event. -/
def createAlert (s : DBState) (now : Nat) (a : Alert) : DBState :=
  let stored : Alert :=
    { a with id := s.nextID, createdAt := now, updatedAt := now }
  { s with
    alerts := s.alerts ++ [stored]
    nextID := s.nextID + 1
    histories := s.histories ++
      [{ alertID := stored.id, action := "created", message := "告警已创建" }]
    events := s.events ++
      [{ eventType := "alert_created", severity := stored.severity,
         message := stored.message, description := stored.description,
         source := "alert_service", hostName := stored.hostName }] }

/-- internal/service/alert_service.go: `updateAlert` — gorm `Save`, an
update of the row with the record's primary key. -/
def updateAlert (s : DBState) (a : Alert) : DBState :=
  { s with alerts := s.alerts.map (fun b => if b.id = a.id then a else b) }

/-- The body of CheckAlerts' inner loop for one (metricType, currentValue)
pair and one rule: skip rules for another metric; otherwise compare
`currentValue >= rule.Threshold`; on breach create a fresh active alert
when none exists for (metricType, rule.Severity, hostname), else refresh
the existing one; with no breach refresh the existing active alert if any,
leaving its status alone. -/
def processRule (hostname : String) (now : Nat) (metricType : String)
    (currentValue : ℚ) (rule : AlertRule) (s : DBState) : DBState :=
  if rule.metricType = metricType then
    if rule.threshold ≤ currentValue then
      match getActiveAlert s metricType rule.severity hostname with
      | none =>
          createAlert s now
            { id := 0
              metricType := metricType
              severity := rule.severity
              value := currentValue
              threshold := rule.threshold
              status := "active"
              message := generateAlertMessage metricType rule.severity
                  currentValue rule.threshold
              description := generateAlertDescription metricType rule.severity
                  currentValue rule.threshold
              hostName := hostname
              createdAt := now
              updatedAt := now }
      | some existingAlert =>
          updateAlert s { existingAlert with value := currentValue, updatedAt := now }
    else
      match getActiveAlert s metricType rule.severity hostname with
      | none => s
      | some existingAlert =>
          updateAlert s { existingAlert with value := currentValue, updatedAt := now }
  else s

/-- CheckAlerts' inner loop: fold of `processRule` over all fetched rules
for one metric reading. -/
def checkMetric (hostname : String) (now : Nat) (metricType : String)
    (currentValue : ℚ) (rules : List AlertRule) (s : DBState) : DBState :=
  rules.foldl (fun acc r => processRule hostname now metricType currentValue r acc) s

/-- internal/service/alert_service.go: `CheckAlerts`.  The rules argument
is the result of `alertRepo.GetAllRules()` (every rule row, with no
enabled filter); the metrics map is iterated in the fixed order cpu,
memory, disk (Go map order is unspecified; all proved statements are
order-insensitive). -/
def checkAlerts (osHostname : String) (now : Nat) (data : MonitoringData)
    (rules : List AlertRule) (s : DBState) : DBState :=
  let hostname := effectiveHostname osHostname
  let metrics : List (String × ℚ) :=
    [("cpu", data.cpu), ("memory", data.memory), ("disk", data.disk)]
  metrics.foldl (fun acc m => checkMetric hostname now m.1 m.2 rules acc) s

/-- gorm `.First(alert, alertID)` — primary-key lookup on the alert table. -/
def findAlert (s : DBState) (alertID : Nat) : Option Alert :=
  s.alerts.find? (fun a => a.id = alertID)

/-- internal/service/alert_service.go: `ResolveAlert`.  The pair's first
component is the returned error value; the second is the database after
the call (unchanged when the primary-key lookup fails, which models the
early return before any write). -/
def resolveAlert (s : DBState) (alertID : Nat) (message : String)
    (now : Nat) : Except DBError Unit × DBState :=
  match findAlert s alertID with
  | none => (Except.error DBError.recordNotFound, s)
  | some alert =>
      let resolved := { alert with status := "resolved", updatedAt := now }
      let s1 := updateAlert s resolved
      let s2 : DBState := { s1 with histories := s1.histories ++
        [{ alertID := alertID, action := "resolved", message := message }] }
      let s3 : DBState := { s2 with events := s2.events ++
        [{ eventType := "alert_resolved", severity := "info",
           message := "告警已解决: " ++ alert.message,
           description := message, source := "alert_service",
           hostName := alert.hostName }] }
      (Except.ok (), s3)

/-- internal/service/alert_service.go: `AcknowledgeAlert`; same result
convention as `resolveAlert`.  Note the source sets the status
unconditionally — there is no check of the current status. -/
def acknowledgeAlert (s : DBState) (alertID : Nat) (message : String)
    (now : Nat) : Except DBError Unit × DBState :=
  match findAlert s alertID with
  | none => (Except.error DBError.recordNotFound, s)
  | some alert =>
      let acked := { alert with status := "acknowledged", updatedAt := now }
      let s1 := updateAlert s acked
      let s2 : DBState := { s1 with histories := s1.histories ++
        [{ alertID := alertID, action := "acknowledged", message := message }] }
      (Except.ok (), s2)

/-- unnamed model file: `CpuUsage` — one cpu history point. -/
structure CpuUsage where
  timestamp : Nat
  usage : ℚ
deriving Repr, DecidableEq

/-- unnamed model file: `MemoryUsage` — one memory history point. -/
structure MemoryUsage where
  timestamp : Nat
  usagePercent : ℚ
  used : ℚ
deriving Repr, DecidableEq

/-- unnamed model file: `NetworkUsage` — one network history point
(`BytesSentPerSec`/`BytesRecvPerSec` are uint64, modelled as Nat). -/
structure NetworkUsage where
  timestamp : Nat
  bytesSentPerSec : Nat
  bytesRecvPerSec : Nat
deriving Repr, DecidableEq

/-- gopsutil `mem.VirtualMemoryStat`, restricted to the fields
collectHistoricalData reads (`Used` is uint64, modelled as Nat). -/
structure VirtualMemoryStat where
  used : Nat
  usedPercent : ℚ
deriving Repr, DecidableEq

/-- gopsutil `net.IOCountersStat`, restricted to the fields
collectHistoricalData reads. -/
structure IOCountersStat where
  bytesSent : Nat
  bytesRecv : Nat
deriving Repr, DecidableEq

/-- The outcome of the three OS metric reads of one sampling tick:
`none` models a failed read (`err != nil`); for cpu and network the
success value is the slice gopsutil returns. -/
structure Reading where
  time : Nat
  cpuPercents : Option (List ℚ)
  vmStat : Option VirtualMemoryStat
  netStats : Option (List IOCountersStat)
deriving Repr, DecidableEq

/-- internal/service/monitor.go: the mutable history state of
`monitorService` (the three bounded slices and `maxHistorySize`). -/
structure MonitorState where
  cpuHistory : List CpuUsage
  memoryHistory : List MemoryUsage
  networkHistory : List NetworkUsage
  maxHistorySize : Nat
deriving Repr, DecidableEq

/-- internal/service/monitor.go: `NewMonitorService` — empty history
slices and `maxHistorySize = 20`. -/
def newMonitorState : MonitorState :=
  { cpuHistory := [], memoryHistory := [], networkHistory := [],
    maxHistorySize := 20 }

/-- The push-then-trim step collectHistoricalData performs on one history
slice: `h = append(h, x); if len(h) > maxHistorySize { h = h[1:] }`. -/
def appendTrim (maxHistorySize : Nat) (h : List α) (x : α) : List α :=
  let h2 := h ++ [x]
  if maxHistorySize < h2.length then h2.drop 1 else h2

/-- internal/service/monitor.go: `collectHistoricalData`, one sampling
tick.  Each metric's slice is pushed only under the source's guard:
cpu needs `err == nil && len(cpuPercents) > 0`, memory needs `err == nil`,
network needs `err == nil && len(netStats) > 0`.  The memory point stores
`float64(vmStat.Used) / (1024*1024*1024)`; the network point stores the
uint64 integer divisions `BytesSent / 5` and `BytesRecv / 5`. -/
def collectHistoricalData (r : Reading) (st : MonitorState) : MonitorState :=
  let st1 : MonitorState :=
    match r.cpuPercents with
    | some (p :: _) =>
        let pt : CpuUsage := { timestamp := r.time, usage := p }
        { st with cpuHistory := appendTrim st.maxHistorySize st.cpuHistory pt }
    | _ => st
  let st2 : MonitorState :=
    match r.vmStat with
    | some vm =>
        let pt : MemoryUsage :=
          { timestamp := r.time, usagePercent := vm.usedPercent,
            used := (vm.used : ℚ) / (1024 * 1024 * 1024) }
        { st1 with memoryHistory :=
            appendTrim st1.maxHistorySize st1.memoryHistory pt }
    | none => st1
  match r.netStats with
  | some (n :: _) =>
      let pt : NetworkUsage :=
        { timestamp := r.time, bytesSentPerSec := n.bytesSent / 5,
          bytesRecvPerSec := n.bytesRecv / 5 }
      { st2 with networkHistory :=
          appendTrim st2.maxHistorySize st2.networkHistory pt }
  | _ => st2

/-- The cpu history point a tick pushes, when its cpu read succeeds with a
non-empty slice. -/
def cpuPoint (r : Reading) : Option CpuUsage :=
  match r.cpuPercents with
  | some (p :: _) => some { timestamp := r.time, usage := p }
  | _ => none

/-- The memory history point a tick pushes, when its memory read succeeds. -/
def memoryPoint (r : Reading) : Option MemoryUsage :=
  match r.vmStat with
  | some vm =>
      some { timestamp := r.time
             usagePercent := vm.usedPercent
             used := (vm.used : ℚ) / (1024 * 1024 * 1024) }
  | none => none

/-- The network history point a tick pushes, when its network read
succeeds with a non-empty slice. -/
def networkPoint (r : Reading) : Option NetworkUsage :=
  match r.netStats with
  | some (n :: _) =>
      some { timestamp := r.time
             bytesSentPerSec := n.bytesSent / 5
             bytesRecvPerSec := n.bytesRecv / 5 }
  | _ => none

/-- A run of the sampling loop from service construction: fold of
`collectHistoricalData` over a list of tick readings, starting from
`NewMonitorService`'s state. -/
def runCollection (ticks : List Reading) : MonitorState :=
  ticks.foldl (fun st r => collectHistoricalData r st) newMonitorState

/-- Modelled from the spec: the spec's rule evaluation decides a breach by
`current_value <op> threshold` using the rule's operator, with operator
ranging over >, <, >=, <= and ==; any other operator is outside the spec's
domain (`none`).  Stated only to compare the spec's evaluation with the
source's. -/
def specBreach (operator : String) (currentValue threshold : ℚ) : Option Bool :=
  if operator = ">" then some (decide (threshold < currentValue))
  else if operator = "<" then some (decide (currentValue < threshold))
  else if operator = ">=" then some (decide (threshold ≤ currentValue))
  else if operator = "<=" then some (decide (currentValue ≤ threshold))
  else if operator = "==" then some (decide (currentValue = threshold))
  else none

/-- Modelled from the spec: the spec's Alert record carries an
`end_time (nullable)` field.  The source's `model.Alert`
(internal/model/alert.go) has no end-time column at all, so the
projection of any stored alert row onto the spec's shape carries an
absent end time. -/
def Alert.specEndTime (_ : Alert) : Option Nat := none

/-- The number of alert rows matching the active-alert WHERE clause of a
given (metric_type, severity, hostname) key. -/
def activeCountFor (s : DBState) (metricType severity hostname : String) : Nat :=
  s.alerts.countP (isActiveFor metricType severity hostname)

/-- The spec's uniqueness invariant: at most one active alert row per
(metric_type, severity, hostname) key. -/
def UniqueActive (s : DBState) : Prop :=
  ∀ metricType severity hostname,
    activeCountFor s metricType severity hostname ≤ 1

/-- The primary-key discipline the database enforces on the alert table:
ids are pairwise distinct and below the next key to be assigned. -/
def WellFormed (s : DBState) : Prop :=
  (s.alerts.map Alert.id).Nodup ∧ ∀ a ∈ s.alerts, a.id < s.nextID

/-- An empty database, as after migration. -/
def emptyDB : DBState :=
  { alerts := [], histories := [], events := [], nextID := 1 }

/-- Fixture: a cpu rule with the strict-greater operator, threshold 80. -/
def cpuGtRule : AlertRule :=
  { id := 1, name := "cpu-high", metricType := "cpu", operator := ">",
    threshold := 80, duration := 60, severity := "warning",
    enabled := true, description := "" }

/-- Fixture: the same rule, disabled. -/
def cpuDisabledRule : AlertRule :=
  { cpuGtRule with name := "cpu-high-disabled", enabled := false }

/-- Fixture: an active cpu alert row with primary key 1. -/
def activeAlert1 : Alert :=
  { id := 1, metricType := "cpu", severity := "warning", value := 90,
    threshold := 80, status := "active", message := "m", description := "d",
    hostName := "host1", createdAt := 0, updatedAt := 0 }

/-- Fixture: a database holding the single active alert. -/
def activeDB : DBState :=
  { alerts := [activeAlert1], histories := [], events := [], nextID := 2 }

/-- Fixture: a sampling tick on which all three OS metric reads fail. -/
def failReading : Reading :=
  { time := 0, cpuPercents := none, vmStat := none, netStats := none }

/-- Fixture: a sampling tick on which all three OS metric reads succeed. -/
def okReading : Reading :=
  { time := 1, cpuPercents := some [55], vmStat := some { used := 2147483648, usedPercent := 50 },
    netStats := some [{ bytesSent := 1000, bytesRecv := 2000 }] }

/-- Fixture: a resolved cpu alert row with primary key 1. -/
def resolvedAlert1 : Alert :=
  { activeAlert1 with status := "resolved" }

/-- Fixture: a database holding the single resolved alert. -/
def resolvedDB : DBState :=
  { alerts := [resolvedAlert1], histories := [], events := [], nextID := 2 }

-- Sanity checks of the embedding on concrete data.
example :
    (checkAlerts "h" 3
      { cpu := 90, memory := 10, disk := 10 }
      [{ id := 1, name := "r", metricType := "cpu", operator := ">",
         threshold := 80, duration := 60, severity := "warning",
         enabled := true, description := "" }]
      { alerts := [], histories := [], events := [], nextID := 1 }).alerts.length = 1 := by
  decide

example :
    (checkAlerts "h" 3
      { cpu := 70, memory := 10, disk := 10 }
      [{ id := 1, name := "r", metricType := "cpu", operator := ">",
         threshold := 80, duration := 60, severity := "warning",
         enabled := true, description := "" }]
      { alerts := [], histories := [], events := [], nextID := 1 }).alerts.length = 0 := by
  decide

/-! ### Helper lemmas: the bounded history slices -/

/-- Folding the push-then-trim step over a sequence of points keeps the
last `C` points: starting from a slice not longer than `C`, the result is
the suffix of length `min (initial + pushes) C` of everything ever held. -/
theorem foldl_appendTrim {α : Type} (C : Nat) (hC : 0 < C) (xs : List α) :
    ∀ h : List α, h.length ≤ C →
      xs.foldl (appendTrim C) h = (h ++ xs).drop (h.length + xs.length - C) := by
  induction xs with
  | nil =>
      intro h hh
      simp [List.foldl_nil, Nat.sub_eq_zero_of_le hh]
  | cons x xs ih =>
      intro h hh
      rw [List.foldl_cons]
      by_cases hlt : h.length < C
      · have h1 : appendTrim C h x = h ++ [x] := by
          simp only [appendTrim, List.length_append, List.length_cons,
            List.length_nil]
          rw [if_neg (by omega)]
        rw [h1, ih (h ++ [x]) (by simp only [List.length_append,
          List.length_cons, List.length_nil]; omega)]
        rw [List.append_assoc, List.singleton_append]
        congr 1
        simp only [List.length_append, List.length_cons, List.length_nil]
        omega
      · have hEq : h.length = C := le_antisymm hh (not_lt.mp hlt)
        have h1 : appendTrim C h x = (h ++ [x]).drop 1 := by
          simp only [appendTrim, List.length_append, List.length_cons,
            List.length_nil]
          rw [if_pos (by omega)]
        have hlen : ((h ++ [x]).drop 1).length ≤ C := by
          simp only [List.length_drop, List.length_append, List.length_cons,
            List.length_nil]
          omega
        rw [h1, ih _ hlen]
        rw [← List.drop_append_of_le_length
          (by simp only [List.length_append, List.length_cons,
            List.length_nil]; omega : 1 ≤ (h ++ [x]).length)]
        rw [List.drop_drop]
        rw [List.append_assoc, List.singleton_append]
        congr 1
        simp only [List.length_drop, List.length_append, List.length_cons,
          List.length_nil]
        omega

/-- One sampling tick leaves `maxHistorySize` alone. -/
theorem collect_maxHistorySize (r : Reading) (st : MonitorState) :
    (collectHistoricalData r st).maxHistorySize = st.maxHistorySize := by
  rcases r with ⟨t, cp, vm, ns⟩
  rcases cp with _ | ⟨_ | ⟨p, ps⟩⟩ <;> rcases vm with _ | v <;>
    rcases ns with _ | ⟨_ | ⟨n, nss⟩⟩ <;> rfl

/-- One sampling tick changes the cpu slice exactly by pushing the tick's
cpu point, when there is one. -/
theorem collect_cpuHistory (r : Reading) (st : MonitorState) :
    (collectHistoricalData r st).cpuHistory =
      match cpuPoint r with
      | some p => appendTrim st.maxHistorySize st.cpuHistory p
      | none => st.cpuHistory := by
  rcases r with ⟨t, cp, vm, ns⟩
  rcases cp with _ | ⟨_ | ⟨p, ps⟩⟩ <;> rcases vm with _ | v <;>
    rcases ns with _ | ⟨_ | ⟨n, nss⟩⟩ <;> rfl

/-- One sampling tick changes the memory slice exactly by pushing the
tick's memory point, when there is one. -/
theorem collect_memoryHistory (r : Reading) (st : MonitorState) :
    (collectHistoricalData r st).memoryHistory =
      match memoryPoint r with
      | some p => appendTrim st.maxHistorySize st.memoryHistory p
      | none => st.memoryHistory := by
  rcases r with ⟨t, cp, vm, ns⟩
  rcases cp with _ | ⟨_ | ⟨p, ps⟩⟩ <;> rcases vm with _ | v <;>
    rcases ns with _ | ⟨_ | ⟨n, nss⟩⟩ <;> rfl

/-- One sampling tick changes the network slice exactly by pushing the
tick's network point, when there is one. -/
theorem collect_networkHistory (r : Reading) (st : MonitorState) :
    (collectHistoricalData r st).networkHistory =
      match networkPoint r with
      | some p => appendTrim st.maxHistorySize st.networkHistory p
      | none => st.networkHistory := by
  rcases r with ⟨t, cp, vm, ns⟩
  rcases cp with _ | ⟨_ | ⟨p, ps⟩⟩ <;> rcases vm with _ | v <;>
    rcases ns with _ | ⟨_ | ⟨n, nss⟩⟩ <;> rfl

/-- A run of sampling ticks acts on the cpu slice as the fold of
push-then-trim over the successful cpu points. -/
theorem foldl_collect_cpu (ticks : List Reading) :
    ∀ st : MonitorState,
      (ticks.foldl (fun s r => collectHistoricalData r s) st).cpuHistory =
        (ticks.filterMap cpuPoint).foldl (appendTrim st.maxHistorySize)
          st.cpuHistory := by
  induction ticks with
  | nil => intro st; rfl
  | cons r ticks ih =>
      intro st
      rw [List.foldl_cons, ih, collect_maxHistorySize, collect_cpuHistory,
        List.filterMap_cons]
      cases hc : cpuPoint r <;> simp [hc]

/-- A run of sampling ticks acts on the memory slice as the fold of
push-then-trim over the successful memory points. -/
theorem foldl_collect_memory (ticks : List Reading) :
    ∀ st : MonitorState,
      (ticks.foldl (fun s r => collectHistoricalData r s) st).memoryHistory =
        (ticks.filterMap memoryPoint).foldl (appendTrim st.maxHistorySize)
          st.memoryHistory := by
  induction ticks with
  | nil => intro st; rfl
  | cons r ticks ih =>
      intro st
      rw [List.foldl_cons, ih, collect_maxHistorySize, collect_memoryHistory,
        List.filterMap_cons]
      cases hc : memoryPoint r <;> simp [hc]

/-- A run of sampling ticks acts on the network slice as the fold of
push-then-trim over the successful network points. -/
theorem foldl_collect_network (ticks : List Reading) :
    ∀ st : MonitorState,
      (ticks.foldl (fun s r => collectHistoricalData r s) st).networkHistory =
        (ticks.filterMap networkPoint).foldl (appendTrim st.maxHistorySize)
          st.networkHistory := by
  induction ticks with
  | nil => intro st; rfl
  | cons r ticks ih =>
      intro st
      rw [List.foldl_cons, ih, collect_maxHistorySize, collect_networkHistory,
        List.filterMap_cons]
      cases hc : networkPoint r <;> simp [hc]

/-! ### Claim theorems: sampling history -/

/-- C3: after any sequence of sampling ticks from service construction,
each history buffer (capacity 20, per `NewMonitorService`) holds exactly
the last `min N 20` points pushed into it, in insertion order, where `N`
counts that buffer's successful pushes; its length is `min N 20`. -/
theorem history_buffers_keep_last_twenty (ticks : List Reading) :
    ((runCollection ticks).cpuHistory =
        (ticks.filterMap cpuPoint).drop ((ticks.filterMap cpuPoint).length - 20) ∧
      (runCollection ticks).cpuHistory.length =
        min (ticks.filterMap cpuPoint).length 20) ∧
    ((runCollection ticks).memoryHistory =
        (ticks.filterMap memoryPoint).drop ((ticks.filterMap memoryPoint).length - 20) ∧
      (runCollection ticks).memoryHistory.length =
        min (ticks.filterMap memoryPoint).length 20) ∧
    ((runCollection ticks).networkHistory =
        (ticks.filterMap networkPoint).drop ((ticks.filterMap networkPoint).length - 20) ∧
      (runCollection ticks).networkHistory.length =
        min (ticks.filterMap networkPoint).length 20) := by
  have hc : (runCollection ticks).cpuHistory =
      (ticks.filterMap cpuPoint).drop ((ticks.filterMap cpuPoint).length - 20) := by
    rw [runCollection, foldl_collect_cpu]
    simp only [newMonitorState]
    rw [foldl_appendTrim 20 (by omega) _ [] (by simp)]
    simp
  have hm : (runCollection ticks).memoryHistory =
      (ticks.filterMap memoryPoint).drop ((ticks.filterMap memoryPoint).length - 20) := by
    rw [runCollection, foldl_collect_memory]
    simp only [newMonitorState]
    rw [foldl_appendTrim 20 (by omega) _ [] (by simp)]
    simp
  have hn : (runCollection ticks).networkHistory =
      (ticks.filterMap networkPoint).drop ((ticks.filterMap networkPoint).length - 20) := by
    rw [runCollection, foldl_collect_network]
    simp only [newMonitorState]
    rw [foldl_appendTrim 20 (by omega) _ [] (by simp)]
    simp
  refine ⟨⟨hc, ?_⟩, ⟨hm, ?_⟩, ⟨hn, ?_⟩⟩ <;>
    first
      | (rw [hc, List.length_drop]; omega)
      | (rw [hm, List.length_drop]; omega)
      | (rw [hn, List.length_drop]; omega)

/-- C9: a failed OS metric read leaves that metric's history slice
unchanged for the tick, and a slice changes only when its read produced a
point. -/
theorem collectionError_leaves_history_unchanged (r : Reading)
    (st : MonitorState) :
    (r.cpuPercents = none →
      (collectHistoricalData r st).cpuHistory = st.cpuHistory) ∧
    (r.vmStat = none →
      (collectHistoricalData r st).memoryHistory = st.memoryHistory) ∧
    (r.netStats = none →
      (collectHistoricalData r st).networkHistory = st.networkHistory) ∧
    ((collectHistoricalData r st).cpuHistory ≠ st.cpuHistory →
      (cpuPoint r).isSome = true) ∧
    ((collectHistoricalData r st).memoryHistory ≠ st.memoryHistory →
      (memoryPoint r).isSome = true) ∧
    ((collectHistoricalData r st).networkHistory ≠ st.networkHistory →
      (networkPoint r).isSome = true) := by
  refine ⟨?_, ?_, ?_, ?_, ?_, ?_⟩
  · intro h
    rw [collect_cpuHistory]
    simp [cpuPoint, h]
  · intro h
    rw [collect_memoryHistory]
    simp [memoryPoint, h]
  · intro h
    rw [collect_networkHistory]
    simp [networkPoint, h]
  · intro h
    rw [collect_cpuHistory] at h
    cases hc : cpuPoint r
    · rw [hc] at h; simp at h
    · rfl
  · intro h
    rw [collect_memoryHistory] at h
    cases hc : memoryPoint r
    · rw [hc] at h; simp at h
    · rfl
  · intro h
    rw [collect_networkHistory] at h
    cases hc : networkPoint r
    · rw [hc] at h; simp at h
    · rfl

/-- Witness for C9 at the all-reads-failed tick: every buffer of the
freshly constructed service is untouched. -/
theorem collectionError_leaves_history_unchanged_witness :
    (collectHistoricalData failReading newMonitorState).cpuHistory =
        newMonitorState.cpuHistory ∧
      (collectHistoricalData failReading newMonitorState).memoryHistory =
        newMonitorState.memoryHistory ∧
      (collectHistoricalData failReading newMonitorState).networkHistory =
        newMonitorState.networkHistory :=
  ⟨(collectionError_leaves_history_unchanged failReading newMonitorState).1 rfl,
    (collectionError_leaves_history_unchanged failReading newMonitorState).2.1 rfl,
    (collectionError_leaves_history_unchanged failReading newMonitorState).2.2.1 rfl⟩

/-! ### Helper lemmas: the alert table -/

/-- A fold preserves any property each step preserves. -/
theorem foldl_preserveP {σ β : Type} (P : σ → Prop) (f : σ → β → σ)
    (l : List β) (hstep : ∀ s b, b ∈ l → P s → P (f s b)) :
    ∀ s, P s → P (l.foldl f s) := by
  induction l with
  | nil => intro s hs; exact hs
  | cons x xs ih =>
      intro s hs
      rw [List.foldl_cons]
      exact ih (fun s b hb => hstep s b (by simp [hb])) _
        (hstep s x (by simp) hs)

/-- countP is unchanged by a map that preserves the predicate pointwise. -/
theorem countP_map_of_pointwise {α : Type} (l : List α) (g : α → α)
    (p : α → Bool) (h : ∀ a ∈ l, p (g a) = p a) :
    (l.map g).countP p = l.countP p := by
  induction l with
  | nil => rfl
  | cons x xs ih =>
      simp only [List.map_cons, List.countP_cons, h x (by simp)]
      rw [ih (fun a ha => h a (by simp [ha]))]

/-- countP does not grow under a map that never turns the predicate on. -/
theorem countP_map_le_of_pointwise {α : Type} (l : List α) (g : α → α)
    (p : α → Bool) (h : ∀ a ∈ l, p (g a) = true → p a = true) :
    (l.map g).countP p ≤ l.countP p := by
  induction l with
  | nil => exact Nat.le_refl _
  | cons x xs ih =>
      simp only [List.map_cons, List.countP_cons]
      have hx := h x (by simp)
      have hxs := ih (fun a ha hpa => h a (by simp [ha]) hpa)
      refine Nat.add_le_add hxs ?_
      by_cases hgx : p (g x) = true
      · rw [if_pos hgx, if_pos (hx hgx)]
      · rw [if_neg hgx]
        exact Nat.zero_le _

/-- Distinct rows of a well-formed alert table have distinct ids. -/
theorem alert_id_inj {s : DBState} (hwf : WellFormed s) :
    ∀ a ∈ s.alerts, ∀ b ∈ s.alerts, a.id = b.id → a = b :=
  fun _ ha _ hb h => List.inj_on_of_nodup_map hwf.1 ha hb h

/-- `updateAlert` does not change the id column. -/
theorem updateAlert_ids (s : DBState) (a : Alert) :
    (updateAlert s a).alerts.map Alert.id = s.alerts.map Alert.id := by
  simp only [updateAlert, List.map_map]
  apply List.map_congr_left
  intro b _
  by_cases hid : b.id = a.id
  · simp only [Function.comp_apply, if_pos hid]
    exact hid.symm
  · simp only [Function.comp_apply, if_neg hid]

/-- `updateAlert` keeps the `nextID` counter. -/
theorem updateAlert_nextID (s : DBState) (a : Alert) :
    (updateAlert s a).nextID = s.nextID := rfl

/-- Updating a row to a record whose id is an already-assigned key keeps
the table well-formed. -/
theorem WellFormed_updateAlert {s : DBState} {a : Alert}
    (hwf : WellFormed s) (hid : a.id < s.nextID) :
    WellFormed (updateAlert s a) := by
  constructor
  · rw [updateAlert_ids]
    exact hwf.1
  · intro b hb
    simp only [updateAlert, List.mem_map] at hb
    obtain ⟨c, hc, rfl⟩ := hb
    rw [updateAlert_nextID] at *
    by_cases h : c.id = a.id
    · rw [if_pos h]
      exact hid
    · rw [if_neg h]
      exact hwf.2 c hc

/-- Inserting a fresh row keeps the alert table well-formed. -/
theorem WellFormed_createAlert {s : DBState} (now : Nat) (a : Alert)
    (hwf : WellFormed s) : WellFormed (createAlert s now a) := by
  constructor
  · simp only [createAlert, List.map_append, List.map_cons, List.map_nil]
    rw [List.nodup_append]
    refine ⟨hwf.1, List.nodup_singleton _, ?_⟩
    intro x hx hy
    simp only [List.mem_singleton] at hy
    obtain ⟨c, hc, rfl⟩ := List.mem_map.mp hx
    have hlt := hwf.2 c hc
    rw [hy] at hlt
    exact absurd hlt (by simp)
  · intro b hb
    simp only [createAlert, List.mem_append, List.mem_singleton] at hb
    rcases hb with hb | rfl
    · have := hwf.2 b hb
      simp only [createAlert]
      omega
    · simp [createAlert]

/-- Refreshing a row in place — same id, key columns and status — keeps
every active count. -/
theorem activeCountFor_updateAlert_refresh {s : DBState} (ex : Alert)
    (v : ℚ) (now : Nat) (hwf : WellFormed s) (hmem : ex ∈ s.alerts) :
    ∀ mt sev h,
      activeCountFor (updateAlert s { ex with value := v, updatedAt := now })
          mt sev h =
        activeCountFor s mt sev h := by
  intro mt sev h
  simp only [activeCountFor, updateAlert]
  apply countP_map_of_pointwise
  intro b hb
  by_cases hb2 : b.id = ({ ex with value := v, updatedAt := now } : Alert).id
  · have hbex : b = ex := alert_id_inj hwf b hb ex hmem hb2
    rw [if_pos hb2, hbex]
    simp only [isActiveFor]
  · rw [if_neg hb2]

/-- Setting a row's status to a non-active value never increases an
active count. -/
theorem activeCountFor_updateAlert_nonactive (s : DBState) (a2 : Alert)
    (hst : a2.status ≠ "active") :
    ∀ mt sev h, activeCountFor (updateAlert s a2) mt sev h ≤
      activeCountFor s mt sev h := by
  intro mt sev h
  simp only [activeCountFor, updateAlert]
  apply countP_map_le_of_pointwise
  intro b _ hp
  by_cases hb2 : b.id = a2.id
  · rw [if_pos hb2] at hp
    exfalso
    apply hst
    simp only [isActiveFor, Bool.and_eq_true, decide_eq_true_eq] at hp
    exact hp.2
  · rw [if_neg hb2] at hp
    exact hp

/-- Inserting a row adds to exactly the counts whose key the new row
matches. -/
theorem activeCountFor_createAlert (s : DBState) (now : Nat) (a : Alert) :
    ∀ mt sev h, activeCountFor (createAlert s now a) mt sev h =
      activeCountFor s mt sev h +
        (if isActiveFor mt sev h
            { a with id := s.nextID, createdAt := now, updatedAt := now }
          then 1 else 0) := by
  intro mt sev h
  simp only [activeCountFor, createAlert, List.countP_append,
    List.countP_cons, List.countP_nil, Nat.zero_add]

/-- When `getActiveAlert` finds nothing, the corresponding count is 0. -/
theorem activeCountFor_eq_zero_of_none {s : DBState} {mt sev h : String}
    (hga : getActiveAlert s mt sev h = none) :
    activeCountFor s mt sev h = 0 := by
  rw [activeCountFor, List.countP_eq_zero]
  intro a ha
  exact List.find?_eq_none.mp hga a ha

/-- One pass of CheckAlerts' inner loop body keeps the alert table
well-formed and the at-most-one-active-per-key invariant. -/
theorem processRule_preserves (host : String) (now : Nat) (mt : String)
    (v : ℚ) (rule : AlertRule) {s : DBState}
    (hwf : WellFormed s) (hua : UniqueActive s) :
    WellFormed (processRule host now mt v rule s) ∧
      UniqueActive (processRule host now mt v rule s) := by
  unfold processRule
  by_cases h1 : rule.metricType = mt
  case neg => rw [if_neg h1]; exact ⟨hwf, hua⟩
  case pos =>
  rw [if_pos h1]
  have hrefresh : ∀ ex : Alert,
      getActiveAlert s mt rule.severity host = some ex →
      WellFormed (updateAlert s { ex with value := v, updatedAt := now }) ∧
        UniqueActive (updateAlert s { ex with value := v, updatedAt := now }) := by
    intro ex hga
    have hmem : ex ∈ s.alerts := List.mem_of_find?_eq_some hga
    refine ⟨WellFormed_updateAlert hwf (hwf.2 ex hmem), ?_⟩
    intro mt' sev' h'
    rw [activeCountFor_updateAlert_refresh ex v now hwf hmem]
    exact hua mt' sev' h'
  by_cases h2 : rule.threshold ≤ v
  · rw [if_pos h2]
    cases hga : getActiveAlert s mt rule.severity host with
    | some ex => exact hrefresh ex hga
    | none =>
        refine ⟨WellFormed_createAlert now _ hwf, ?_⟩
        intro mt' sev' h'
        rw [activeCountFor_createAlert]
        by_cases hp : isActiveFor mt' sev' h'
            { id := s.nextID
              metricType := mt
              severity := rule.severity
              value := v
              threshold := rule.threshold
              status := "active"
              message := generateAlertMessage mt rule.severity v rule.threshold
              description := generateAlertDescription mt rule.severity v
                  rule.threshold
              hostName := host
              createdAt := now
              updatedAt := now } = true
        · have hkey : mt = mt' ∧ rule.severity = sev' ∧ host = h' := by
            simp only [isActiveFor, Bool.and_eq_true, decide_eq_true_eq] at hp
            exact ⟨hp.1.1.1, hp.1.1.2, hp.1.2⟩
          obtain ⟨hk1, hk2, hk3⟩ := hkey
          subst hk1; subst hk2; subst hk3
          rw [activeCountFor_eq_zero_of_none hga]
          simp [hp]
        · rw [if_neg (by exact hp)]
          have := hua mt' sev' h'
          omega
  · rw [if_neg h2]
    cases hga : getActiveAlert s mt rule.severity host with
    | some ex => exact hrefresh ex hga
    | none => exact ⟨hwf, hua⟩

/-- A whole evaluation tick keeps the alert table well-formed and the
at-most-one-active-per-key invariant. -/
theorem checkAlerts_preserves (host : String) (now : Nat)
    (data : MonitoringData) (rules : List AlertRule) {s : DBState}
    (hwf : WellFormed s) (hua : UniqueActive s) :
    WellFormed (checkAlerts host now data rules s) ∧
      UniqueActive (checkAlerts host now data rules s) := by
  unfold checkAlerts
  refine foldl_preserveP (fun st => WellFormed st ∧ UniqueActive st) _ _
    ?_ s ⟨hwf, hua⟩
  intro s' m _ hs'
  unfold checkMetric
  refine foldl_preserveP (fun st => WellFormed st ∧ UniqueActive st) _ _
    ?_ s' hs'
  intro s'' r _ hs''
  exact processRule_preserves _ _ _ _ _ hs''.1 hs''.2

/-- AcknowledgeAlert keeps the invariant: it can only turn a row
non-active. -/
theorem acknowledgeAlert_preserves {s : DBState} (i : Nat) (msg : String)
    (now : Nat) (hua : UniqueActive s) :
    UniqueActive (acknowledgeAlert s i msg now).2 := by
  unfold acknowledgeAlert
  cases hf : findAlert s i with
  | none => exact hua
  | some a =>
      intro mt sev h
      have hle := activeCountFor_updateAlert_nonactive s
        { a with status := "acknowledged", updatedAt := now }
        (by simp) mt sev h
      calc activeCountFor
            (updateAlert s { a with status := "acknowledged", updatedAt := now })
            mt sev h ≤ activeCountFor s mt sev h := hle
        _ ≤ 1 := hua mt sev h

/-- ResolveAlert keeps the invariant: it can only turn a row non-active. -/
theorem resolveAlert_preserves {s : DBState} (i : Nat) (msg : String)
    (now : Nat) (hua : UniqueActive s) :
    UniqueActive (resolveAlert s i msg now).2 := by
  unfold resolveAlert
  cases hf : findAlert s i with
  | none => exact hua
  | some a =>
      intro mt sev h
      have hle := activeCountFor_updateAlert_nonactive s
        { a with status := "resolved", updatedAt := now }
        (by simp) mt sev h
      calc activeCountFor
            (updateAlert s { a with status := "resolved", updatedAt := now })
            mt sev h ≤ activeCountFor s mt sev h := hle
        _ ≤ 1 := hua mt sev h

/-- One pass of the inner loop body keeps the table well-formed (no
uniqueness assumption needed). -/
theorem processRule_wellFormed (host : String) (now : Nat) (mt : String)
    (v : ℚ) (rule : AlertRule) {s : DBState} (hwf : WellFormed s) :
    WellFormed (processRule host now mt v rule s) := by
  unfold processRule
  by_cases h1 : rule.metricType = mt
  case neg => rw [if_neg h1]; exact hwf
  case pos =>
  rw [if_pos h1]
  have hupd : ∀ ex : Alert,
      getActiveAlert s mt rule.severity host = some ex →
      WellFormed (updateAlert s { ex with value := v, updatedAt := now }) := by
    intro ex hga
    exact WellFormed_updateAlert hwf
      (hwf.2 ex (List.mem_of_find?_eq_some hga))
  by_cases h2 : rule.threshold ≤ v
  · rw [if_pos h2]
    cases hga : getActiveAlert s mt rule.severity host with
    | some ex => exact hupd ex hga
    | none => exact WellFormed_createAlert now _ hwf
  · rw [if_neg h2]
    cases hga : getActiveAlert s mt rule.severity host with
    | some ex => exact hupd ex hga
    | none => exact hwf

/-- A row that is not active is carried through the inner loop body
untouched. -/
theorem processRule_keeps_nonactive_row (host : String) (now : Nat)
    (mt : String) (v : ℚ) (rule : AlertRule) {s : DBState} {a : Alert}
    (hwf : WellFormed s) (hmem : a ∈ s.alerts) (hst : a.status ≠ "active") :
    a ∈ (processRule host now mt v rule s).alerts := by
  unfold processRule
  by_cases h1 : rule.metricType = mt
  case neg => rw [if_neg h1]; exact hmem
  case pos =>
  rw [if_pos h1]
  have hupd : ∀ ex : Alert,
      getActiveAlert s mt rule.severity host = some ex →
      a ∈ (updateAlert s { ex with value := v, updatedAt := now }).alerts := by
    intro ex hga
    have hexmem : ex ∈ s.alerts := List.mem_of_find?_eq_some hga
    have hexact : isActiveFor mt rule.severity host ex = true :=
      List.find?_some hga
    have hexst : ex.status = "active" := by
      simp only [isActiveFor, Bool.and_eq_true, decide_eq_true_eq] at hexact
      exact hexact.2
    have hane : ¬ a.id = ({ ex with value := v, updatedAt := now } : Alert).id := by
      intro he
      have : a = ex := alert_id_inj hwf a hmem ex hexmem he
      rw [this] at hst
      exact hst hexst
    have hmm := List.mem_map_of_mem
      (fun b => if b.id = ({ ex with value := v, updatedAt := now } : Alert).id
        then { ex with value := v, updatedAt := now } else b) hmem
    simp only [if_neg hane] at hmm
    exact hmm
  by_cases h2 : rule.threshold ≤ v
  · rw [if_pos h2]
    cases hga : getActiveAlert s mt rule.severity host with
    | some ex => exact hupd ex hga
    | none =>
        simp only [createAlert, List.mem_append]
        exact Or.inl hmem
  · rw [if_neg h2]
    cases hga : getActiveAlert s mt rule.severity host with
    | some ex => exact hupd ex hga
    | none => exact hmem

/-- A whole evaluation tick keeps the table well-formed and carries every
non-active row through untouched. -/
theorem checkAlerts_keeps_nonactive_row (host : String) (now : Nat)
    (data : MonitoringData) (rules : List AlertRule) {s : DBState} {a : Alert}
    (hwf : WellFormed s) (hmem : a ∈ s.alerts) (hst : a.status ≠ "active") :
    WellFormed (checkAlerts host now data rules s) ∧
      a ∈ (checkAlerts host now data rules s).alerts := by
  unfold checkAlerts
  refine foldl_preserveP
    (fun st => WellFormed st ∧ a ∈ st.alerts) _ _ ?_ s ⟨hwf, hmem⟩
  intro s' m _ hs'
  unfold checkMetric
  refine foldl_preserveP
    (fun st => WellFormed st ∧ a ∈ st.alerts) _ _ ?_ s' hs'
  intro s'' r _ hs''
  exact ⟨processRule_wellFormed _ _ _ _ _ hs''.1,
    processRule_keeps_nonactive_row _ _ _ _ _ hs''.1 hs''.2 hst⟩

/-- A well-formed table's primary-key lookup at a member's id finds that
member. -/
theorem findAlert_of_mem {s : DBState} {a : Alert}
    (hwf : WellFormed s) (hmem : a ∈ s.alerts) :
    findAlert s a.id = some a := by
  cases hf : findAlert s a.id with
  | none =>
      exfalso
      have := List.find?_eq_none.mp hf a hmem
      simp at this
  | some c =>
      have hcmem : c ∈ s.alerts := List.mem_of_find?_eq_some hf
      have hcid : c.id = a.id := by
        have := List.find?_some hf
        simpa using this
      rw [alert_id_inj hwf c hcmem a hmem hcid]

/-! ### Claim theorems: the alert lifecycle -/

/-- C2: on a well-formed alert table, the at-most-one-active-alert-per-
(metric_type, severity, hostname) invariant is preserved by every
operation: a CheckAlerts evaluation tick (creation and refresh paths),
AcknowledgeAlert, and ResolveAlert. -/
theorem unique_active_invariant_preserved (s : DBState)
    (hwf : WellFormed s) (hua : UniqueActive s) :
    (∀ host now data rules,
      UniqueActive (checkAlerts host now data rules s)) ∧
    (∀ i msg now, UniqueActive (acknowledgeAlert s i msg now).2) ∧
    (∀ i msg now, UniqueActive (resolveAlert s i msg now).2) :=
  ⟨fun host now data rules =>
      (checkAlerts_preserves host now data rules hwf hua).2,
    fun i msg now => acknowledgeAlert_preserves i msg now hua,
    fun i msg now => resolveAlert_preserves i msg now hua⟩

/-- Witness for C2 at a concrete one-alert table and a breaching tick. -/
theorem unique_active_invariant_preserved_witness :
    UniqueActive (checkAlerts "host1" 5
      { cpu := 90, memory := 10, disk := 10 } [cpuGtRule] activeDB) := by
  have hwf : WellFormed activeDB := by
    constructor
    · simp [activeDB, activeAlert1]
    · intro a ha
      simp only [activeDB, List.mem_singleton] at ha
      rw [ha]
      simp [activeDB, activeAlert1]
  have hua : UniqueActive activeDB := by
    intro mt sev h
    simp only [activeCountFor, activeDB, List.countP_cons, List.countP_nil,
      Nat.zero_add]
    by_cases hp : isActiveFor mt sev h activeAlert1 = true
    · rw [hp]; simp
    · rw [Bool.not_eq_true] at hp; rw [hp]; simp
  exact (unique_active_invariant_preserved activeDB hwf hua).1 "host1" 5
    { cpu := 90, memory := 10, disk := 10 } [cpuGtRule]

/-- C7 counterexample: AcknowledgeAlert on a resolved alert moves it to
status `acknowledged` — the code has no guard on the current status, so
there IS a transition out of `resolved`. -/
theorem acknowledge_moves_resolved_ce :
    resolvedAlert1.status = "resolved" ∧
    (findAlert (acknowledgeAlert resolvedDB 1 "ack" 5).2 1).map Alert.status =
      some "acknowledged" := by
  constructor
  · rfl
  · rfl

/-- C7 amended: a resolved alert row is never moved out of `resolved` by
CheckAlerts or ResolveAlert, but AcknowledgeAlert on its id
unconditionally sets its status to `acknowledged` (including from
`resolved`). -/
theorem resolved_rows_under_operations {s : DBState} {a : Alert}
    (hwf : WellFormed s) (hmem : a ∈ s.alerts)
    (hres : a.status = "resolved") :
    (∀ host now data rules,
      ∀ b ∈ (checkAlerts host now data rules s).alerts,
        b.id = a.id → b.status = "resolved") ∧
    (∀ i msg now,
      ∀ b ∈ (resolveAlert s i msg now).2.alerts,
        b.id = a.id → b.status = "resolved") ∧
    (∀ msg now,
      ∃ b ∈ (acknowledgeAlert s a.id msg now).2.alerts,
        b.id = a.id ∧ b.status = "acknowledged") := by
  have hst : a.status ≠ "active" := by rw [hres]; simp
  refine ⟨?_, ?_, ?_⟩
  · intro host now data rules b hb hbid
    obtain ⟨hwf2, hmem2⟩ :=
      checkAlerts_keeps_nonactive_row host now data rules hwf hmem hst
    rw [alert_id_inj hwf2 b hb a hmem2 hbid]
    exact hres
  · intro i msg now b hb hbid
    unfold resolveAlert at hb
    cases hf : findAlert s i with
    | none =>
        rw [hf] at hb
        rw [alert_id_inj hwf b hb a hmem hbid]
        exact hres
    | some c =>
        rw [hf] at hb
        simp only [updateAlert, List.mem_map] at hb
        obtain ⟨d, hd, rfl⟩ := hb
        by_cases hdc : d.id = ({ c with status := "resolved", updatedAt := now } : Alert).id
        · rw [if_pos hdc]
        · rw [if_neg hdc]
          rw [if_neg hdc] at hbid
          rw [alert_id_inj hwf d hd a hmem hbid]
          exact hres
  · intro msg now
    have hf : findAlert s a.id = some a := findAlert_of_mem hwf hmem
    refine ⟨{ a with status := "acknowledged", updatedAt := now }, ?_, rfl, rfl⟩
    unfold acknowledgeAlert
    rw [hf]
    have hmm := List.mem_map_of_mem
      (fun b => if b.id = ({ a with status := "acknowledged", updatedAt := now } : Alert).id
        then { a with status := "acknowledged", updatedAt := now } else b) hmem
    simp only [if_pos rfl] at hmm
    exact hmm

/-- Witness for C7 at the concrete one-resolved-alert table. -/
theorem resolved_rows_under_operations_witness :
    ∃ b ∈ (acknowledgeAlert resolvedDB resolvedAlert1.id "ack" 7).2.alerts,
      b.id = resolvedAlert1.id ∧ b.status = "acknowledged" := by
  have hwf : WellFormed resolvedDB := by
    constructor
    · simp [resolvedDB, resolvedAlert1, activeAlert1]
    · intro a ha
      simp only [resolvedDB, List.mem_singleton] at ha
      rw [ha]
      simp [resolvedDB, resolvedAlert1, activeAlert1]
  exact (resolved_rows_under_operations hwf (by simp [resolvedDB]) rfl).2.2
    "ack" 7

/-- C1 counterexample: under the spec's operator semantics a `>` rule
does not breach at current value = threshold, yet CheckAlerts creates an
alert there — the code compares `currentValue >= threshold` and never
reads the operator column. -/
theorem operator_ignored_ce :
    specBreach cpuGtRule.operator 80 cpuGtRule.threshold = some false ∧
    (checkAlerts "host1" 3 { cpu := 80, memory := 0, disk := 0 }
        [cpuGtRule] emptyDB).alerts.length = 1 := by
  constructor
  · rfl
  · rfl

/-- C1 amended: CheckAlerts' per-rule decision ignores the operator
column — the result is unchanged under any replacement of the operator —
and (with no active alert for the rule's key) an alert is created exactly
when `currentValue >= threshold`. -/
theorem breach_is_value_ge_threshold (host : String) (now : Nat)
    (mt : String) (v : ℚ) (rule : AlertRule) (s : DBState) (op : String)
    (hmt : rule.metricType = mt)
    (hnone : getActiveAlert s mt rule.severity host = none) :
    processRule host now mt v rule s =
        processRule host now mt v { rule with operator := op } s ∧
      ((processRule host now mt v rule s).alerts.length =
          s.alerts.length + 1 ↔ rule.threshold ≤ v) := by
  constructor
  · rfl
  · unfold processRule
    rw [if_pos hmt]
    by_cases h2 : rule.threshold ≤ v
    · rw [if_pos h2, hnone]
      exact iff_of_true (by simp [createAlert]) h2
    · rw [if_neg h2, hnone]
      exact iff_of_false (by simp) h2

/-- Witness for the amended C1 at a concrete rule and reading. -/
theorem breach_is_value_ge_threshold_witness :
    processRule "host1" 3 "cpu" 90 cpuGtRule emptyDB =
        processRule "host1" 3 "cpu" 90
          { cpuGtRule with operator := "<" } emptyDB ∧
      ((processRule "host1" 3 "cpu" 90 cpuGtRule emptyDB).alerts.length =
          emptyDB.alerts.length + 1 ↔ cpuGtRule.threshold ≤ 90) :=
  breach_is_value_ge_threshold "host1" 3 "cpu" 90 cpuGtRule emptyDB "<"
    rfl rfl

/-- C4: on a tick where the code's comparison does not breach
(`currentValue < threshold`), an existing active alert for the rule's key
is refreshed — only its value and updated-at change, its status is left
as is (never set to resolved), and no history or event row is added; with
no active alert for the key the state is untouched. -/
theorem no_breach_refresh_behavior (host : String) (now : Nat)
    (mt : String) (v : ℚ) (rule : AlertRule) (s : DBState)
    (hmt : rule.metricType = mt) (hv : v < rule.threshold) :
    (∀ ex, getActiveAlert s mt rule.severity host = some ex →
      processRule host now mt v rule s =
          updateAlert s { ex with value := v, updatedAt := now } ∧
        ({ ex with value := v, updatedAt := now } : Alert).status =
          ex.status ∧
        (processRule host now mt v rule s).histories = s.histories ∧
        (processRule host now mt v rule s).events = s.events) ∧
    (getActiveAlert s mt rule.severity host = none →
      processRule host now mt v rule s = s) := by
  have h2 : ¬ rule.threshold ≤ v := not_le.mpr hv
  constructor
  · intro ex hga
    unfold processRule
    rw [if_pos hmt, if_neg h2, hga]
    exact ⟨rfl, rfl, rfl, rfl⟩
  · intro hga
    unfold processRule
    rw [if_pos hmt, if_neg h2, hga]

/-- Witness for C4: a non-breaching cpu reading against the one-active-
alert table refreshes the row in place. -/
theorem no_breach_refresh_behavior_witness :
    processRule "host1" 9 "cpu" 70 cpuGtRule activeDB =
      updateAlert activeDB { activeAlert1 with value := 70, updatedAt := 9 } :=
  (((no_breach_refresh_behavior "host1" 9 "cpu" 70 cpuGtRule activeDB
      rfl (by decide)).1) activeAlert1 rfl).1

/-- C5 counterexample: a disabled rule still fires — CheckAlerts fetches
every rule via GetAllRules and never consults the enabled column. -/
theorem disabled_rule_fires_ce :
    cpuDisabledRule.enabled = false ∧
    (checkAlerts "host1" 3 { cpu := 90, memory := 0, disk := 0 }
        [cpuDisabledRule] emptyDB).alerts.length = 1 := by
  constructor
  · rfl
  · rfl

/-- C5 amended: CheckAlerts evaluates every fetched rule regardless of
its enabled flag — flipping every rule's enabled column to any value
leaves the evaluation result unchanged. -/
theorem checkAlerts_ignores_enabled (host : String) (now : Nat)
    (data : MonitoringData) (rules : List AlertRule) (s : DBState)
    (b : Bool) :
    checkAlerts host now data
        (rules.map (fun r => { r with enabled := b })) s =
      checkAlerts host now data rules s := by
  simp only [checkAlerts, checkMetric, List.foldl_map]
  rfl

/-- C8: ResolveAlert on an id absent from the alert table returns the
record-not-found error and leaves every table unchanged. -/
theorem resolve_nonexistent_not_found (s : DBState) (i : Nat)
    (msg : String) (now : Nat) (h : findAlert s i = none) :
    resolveAlert s i msg now = (Except.error DBError.recordNotFound, s) := by
  unfold resolveAlert
  rw [h]

/-- Witness for C8 on the empty database. -/
theorem resolve_nonexistent_not_found_witness :
    resolveAlert emptyDB 1 "m" 3 =
      (Except.error DBError.recordNotFound, emptyDB) :=
  resolve_nonexistent_not_found emptyDB 1 "m" 3 rfl

/-- C6 counterexample: resolving an existing alert moves it to status
`resolved`, but no end time is set to the resolution instant — the
source's alert record has no end-time column at all. -/
theorem resolve_sets_no_end_time_ce :
    (findAlert (resolveAlert activeDB 1 "fixed" 42).2 1).map Alert.status =
        some "resolved" ∧
      (findAlert (resolveAlert activeDB 1 "fixed" 42).2 1).map
          Alert.specEndTime = some none ∧
      (some (none : Option Nat) ≠ some (some 42)) := by
  refine ⟨rfl, rfl, by decide⟩

/-- C6 amended: for an existing alert, ResolveAlert returns ok, rewrites
exactly that row to status `resolved` with updated-at = now (there is no
end-time column to set — every row's spec-side end time stays absent),
appends exactly one `resolved` history row carrying the given message,
and exactly one `alert_resolved` system event. -/
theorem resolveAlert_behavior (s : DBState) (i : Nat) (msg : String)
    (now : Nat) (a : Alert) (hf : findAlert s i = some a) :
    (resolveAlert s i msg now).1 = Except.ok () ∧
    (resolveAlert s i msg now).2.alerts =
      s.alerts.map (fun b => if b.id = a.id
        then { a with status := "resolved", updatedAt := now } else b) ∧
    (resolveAlert s i msg now).2.histories =
      s.histories ++ [{ alertID := i, action := "resolved", message := msg }] ∧
    (resolveAlert s i msg now).2.events =
      s.events ++ [(⟨"alert_resolved", "info",
        "告警已解决: " ++ a.message, msg,
        "alert_service", a.hostName⟩ : SystemEvent)] ∧
    (∀ b ∈ (resolveAlert s i msg now).2.alerts, b.specEndTime = none) := by
  unfold resolveAlert
  rw [hf]
  exact ⟨rfl, rfl, rfl, rfl, fun b _ => rfl⟩

/-- Witness for the amended C6 at the concrete one-active-alert table. -/
theorem resolveAlert_behavior_witness :
    (resolveAlert activeDB 1 "done" 42).1 = Except.ok () ∧
    (resolveAlert activeDB 1 "done" 42).2.histories =
      activeDB.histories ++
        [{ alertID := 1, action := "resolved", message := "done" }] :=
  ⟨(resolveAlert_behavior activeDB 1 "done" 42 activeAlert1 rfl).1,
    (resolveAlert_behavior activeDB 1 "done" 42 activeAlert1 rfl).2.2.1⟩

/-- Dropping fold elements on which the step acts as the identity does
not change a fold. -/
theorem foldl_filter_of_id {α σ : Type} (p : α → Bool) (f : σ → α → σ)
    (l : List α) (hid : ∀ x ∈ l, p x = false → ∀ s, f s x = s) :
    ∀ s, (l.filter p).foldl f s = l.foldl f s := by
  induction l with
  | nil => intro s; rfl
  | cons x xs ih =>
      intro s
      rw [List.filter_cons]
      by_cases hp : p x = true
      · rw [if_pos hp, List.foldl_cons, List.foldl_cons]
        exact ih (fun y hy hyp => hid y (by simp [hy]) hyp) _
      · rw [Bool.not_eq_true] at hp
        rw [if_neg (by simp [hp]), List.foldl_cons,
          hid x (by simp) hp s]
        exact ih (fun y hy hyp => hid y (by simp [hy]) hyp) _

/-- A rule for a different metric leaves the state alone. -/
theorem processRule_other_metric (host : String) (now : Nat) (mt : String)
    (v : ℚ) (rule : AlertRule) (s : DBState)
    (h : ¬ rule.metricType = mt) :
    processRule host now mt v rule s = s := by
  unfold processRule
  rw [if_neg h]

/-- For any of the three metric keys CheckAlerts dispatches on, rules
whose metric type is outside cpu/memory/disk can be dropped from the
fetched list without changing the result. -/
theorem checkMetric_filter_supported (host : String) (now : Nat)
    (mt : String) (v : ℚ) (rules : List AlertRule) (s : DBState)
    (hmt : mt = "cpu" ∨ mt = "memory" ∨ mt = "disk") :
    checkMetric host now mt v
        (rules.filter (fun r => r.metricType = "cpu" ||
          r.metricType = "memory" || r.metricType = "disk")) s =
      checkMetric host now mt v rules s := by
  unfold checkMetric
  apply foldl_filter_of_id
  intro r _ hrp s'
  apply processRule_other_metric
  intro heq
  simp only [Bool.or_eq_false_iff, decide_eq_false_iff_not] at hrp
  rcases hmt with h | h | h <;> rw [heq, h] at hrp
  · exact hrp.1.1 rfl
  · exact hrp.1.2 rfl
  · exact hrp.2 rfl

/-- C10: a rule whose metric type is not cpu, memory or disk (for
instance `network`) is never evaluated: filtering every such rule out of
the fetched list leaves the result of an evaluation tick unchanged,
whatever the readings, the rule's enabled flag and its threshold. -/
theorem checkAlerts_ignores_unsupported_metric (host : String) (now : Nat)
    (data : MonitoringData) (rules : List AlertRule) (s : DBState) :
    checkAlerts host now data
        (rules.filter (fun r => r.metricType = "cpu" ||
          r.metricType = "memory" || r.metricType = "disk")) s =
      checkAlerts host now data rules s := by
  unfold checkAlerts
  simp only [List.foldl_cons, List.foldl_nil]
  rw [checkMetric_filter_supported _ _ _ _ _ _ (Or.inl rfl),
    checkMetric_filter_supported _ _ _ _ _ _ (Or.inr (Or.inl rfl)),
    checkMetric_filter_supported _ _ _ _ _ _ (Or.inr (Or.inr rfl))]
